import Mathlib

/-!
Shallow embedding of `src/index.js` (fluent schema-validation library).

JavaScript values are modelled by the inductive type `Value`; `undefined`
and `null` are explicit constructors. A thrown object `{field, message}`
is a `ValidationError`; a host-level `TypeError` (e.g. reading `.length`
of `null`) is the `Thrown.typeError` constructor. A rule is a function
that either passes (`none`) or throws (`some t`) — the source's rules are
pure apart from throwing, so `Option Thrown` captures them exactly.

The class hierarchy `BaseValidator` / `StringValidator` / `NumberValidator`
/ `BooleanValidator` / `ArrayValidator` / `JSONValidator` is flattened into
one structure `BaseValidator` with a `kind` tag; the virtual dispatch of
`validate` (only `BooleanValidator` and `JSONValidator` override it) is the
`match` in `BaseValidator.validate`. Constraint methods of the subclasses
keep their source names in namespaces (`StringValidator.min`, …).

`JSON.parse` is a host builtin, not code of this repository; validation
functions therefore take the success predicate of the parser as an explicit
parameter `parseOk` (in JS it is the ambient global). Records and schema
definitions are association lists whose list order is the JS key
enumeration / insertion order; object keys are unique.
-/

inductive Value where
  | undef : Value
  | null : Value
  | str : String → Value
  | num : Int → Value
  | bool : Bool → Value
  | arr : List Value → Value

structure ValidationError where
  field : String
  message : String
deriving DecidableEq

inductive Thrown where
  | verr : ValidationError → Thrown
  | typeError : Thrown
deriving DecidableEq

/-- Result of a `validate` call: a normal return carrying the returned JS
value (`undefined` from the bare `return;`, `true` from `return true`), or
a thrown error. -/
inductive VResult where
  | ok : Value → VResult
  | thrown : Thrown → VResult

def Rule := Value → String → Option Thrown

inductive ValidatorKind where
  | string | number | boolean | array | json
deriving DecidableEq

structure BaseValidator where
  kind : ValidatorKind
  rules : List Rule
  isRequired : Bool

/-- `value === undefined`. -/
def isUndef : Value → Bool
  | .undef => true
  | _ => false

/-- JS strict equality `===` as used by `Array.prototype.includes`
(SameValueZero). Arrays and objects compare by reference; two distinct
literals are never `===`, so `arr` against `arr` is `false` here (no claim
compares array identity). -/
def jsStrictEq : Value → Value → Bool
  | .undef, .undef => true
  | .null, .null => true
  | .str a, .str b => a == b
  | .num a, .num b => a == b
  | .bool a, .bool b => a == b
  | _, _ => false

/-- JS `String(v)` for primitive values. Arrays stringify by joining their
elements; no claim stringifies an array value, so that case is left as the
empty string. -/
def jsToPrimitiveString : Value → String
  | .undef => "undefined"
  | .null => "null"
  | .str s => s
  | .num n => toString n
  | .bool b => cond b "true" "false"
  | .arr _ => ""

/-- One element of `Array.prototype.join`: `null` and `undefined` become
the empty string, other elements go through `String(·)`. -/
def joinItem : Value → String
  | .undef => ""
  | .null => ""
  | v => jsToPrimitiveString v

/-- `Array.prototype.join(sep)`. -/
def jsJoin (sep : String) : List Value → String
  | [] => ""
  | [x] => joinItem x
  | x :: xs => joinItem x ++ sep ++ jsJoin sep xs

/-- JS numeric coercion as performed by the relational operators `<` / `>`
in `NumberValidator`'s rules; `none` is NaN (every comparison false).
Numeric strings are modelled for integers; `''` and `null` coerce to `0`,
`[]` to `0`; non-empty arrays are approximated as NaN (no claim compares
an array numerically). -/
def jsToNumber : Value → Option Int
  | .undef => none
  | .null => some 0
  | .bool b => some (cond b 1 0)
  | .num n => some n
  | .str s => if s = "" then some 0 else s.toInt?
  | .arr [] => some 0
  | .arr _ => none

/-- The rule pushed by `BaseValidator.required()` (src/index.js:9-13). -/
def requiredRule : Rule := fun value field =>
  match value with
  | .undef => some (.verr ⟨field, "Value is required"⟩)
  | .null => some (.verr ⟨field, "Value is required"⟩)
  | .str "" => some (.verr ⟨field, "Value is required"⟩)
  | _ => none

/-- The rule pushed by `BaseValidator.oneOf(allowedValues)`
(src/index.js:18-21). -/
def oneOfRule (allowedValues : List Value) : Rule := fun value field =>
  if allowedValues.any (fun a => jsStrictEq a value) then none
  else some (.verr ⟨field, "Value must be one of: " ++ jsJoin ", " allowedValues⟩)

/-- The rule pushed by `StringValidator.min(length)` (src/index.js:53-57):
`value.length < length`. Strings and arrays have a numeric `.length`;
`null`/`undefined` raise a TypeError on property access; for other values
`.length` is `undefined` and the NaN comparison is false. -/
def strMinRule (length : Nat) : Rule := fun value field =>
  match value with
  | .str s =>
    if s.length < length then
      some (.verr ⟨field, "Value must be at least " ++ toString length ++ " characters long"⟩)
    else none
  | .arr xs =>
    if xs.length < length then
      some (.verr ⟨field, "Value must be at least " ++ toString length ++ " characters long"⟩)
    else none
  | .null => some .typeError
  | .undef => some .typeError
  | _ => none

/-- The rule pushed by `StringValidator.max(length)` (src/index.js:62-66). -/
def strMaxRule (length : Nat) : Rule := fun value field =>
  match value with
  | .str s =>
    if s.length > length then
      some (.verr ⟨field, "Value must be no more than " ++ toString length ++ " characters long"⟩)
    else none
  | .arr xs =>
    if xs.length > length then
      some (.verr ⟨field, "Value must be no more than " ++ toString length ++ " characters long"⟩)
    else none
  | .null => some .typeError
  | .undef => some .typeError
  | _ => none

/-- The rule pushed by `NumberValidator.min(minValue)` (src/index.js:87-91):
`value < minValue` with JS coercion; a NaN comparison is false (passes). -/
def numMinRule (minValue : Int) : Rule := fun value field =>
  match jsToNumber value with
  | some n =>
    if n < minValue then
      some (.verr ⟨field, "Value must be greater than or equal to " ++ toString minValue⟩)
    else none
  | none => none

/-- The rule pushed by `NumberValidator.max(maxValue)` (src/index.js:96-100). -/
def numMaxRule (maxValue : Int) : Rule := fun value field =>
  match jsToNumber value with
  | some n =>
    if n > maxValue then
      some (.verr ⟨field, "Value must be less than or equal to " ++ toString maxValue⟩)
    else none
  | none => none

/-- The `for (let rule of this.rules) rule(value, field);` loop of
`BaseValidator.validate` (src/index.js:30-32): run the rules in insertion
order, stopping at the first throw. -/
def runRules : List Rule → Value → String → Option Thrown
  | [], _, _ => none
  | r :: rest, value, field =>
    match r value field with
    | some t => some t
    | none => runRules rest value field

/-- `BaseValidator.validate` (src/index.js:26-34): skip when the value is
`undefined` and the validator is not required (bare `return;` =
`undefined`), otherwise run the rules and `return true`. -/
def baseValidate (v : BaseValidator) (value : Value) (field : String) : VResult :=
  if isUndef value && !v.isRequired then .ok .undef
  else
    match runRules v.rules value field with
    | some t => .thrown t
    | none => .ok (.bool true)

/-- `typeof value === 'boolean'`. -/
def jsTypeofBoolean : Value → Bool
  | .bool _ => true
  | _ => false

/-- `BooleanValidator.validate` (src/index.js:120-128): same skip check,
then a hard type check before delegating to `super.validate`. -/
def booleanValidate (v : BaseValidator) (value : Value) (field : String) : VResult :=
  if isUndef value && !v.isRequired then .ok .undef
  else if !jsTypeofBoolean value then .thrown (.verr ⟨field, "Value must be a boolean"⟩)
  else baseValidate v value field

/-- `JSONValidator.validate` (src/index.js:175-185): same skip check, then
`JSON.parse(value)` — failure throws `Invalid JSON format`, success falls
through to `super.validate` on the original value. `parseOk` is the
success predicate of the host's `JSON.parse`. -/
def jsonValidate (parseOk : Value → Bool) (v : BaseValidator) (value : Value)
    (field : String) : VResult :=
  if isUndef value && !v.isRequired then .ok .undef
  else if !parseOk value then .thrown (.verr ⟨field, "Invalid JSON format"⟩)
  else baseValidate v value field

/-- Virtual dispatch of `validate`: only `BooleanValidator` and
`JSONValidator` override it; `StringValidator`, `NumberValidator` and
`ArrayValidator` inherit `BaseValidator.validate` unchanged. -/
def BaseValidator.validate (parseOk : Value → Bool) (v : BaseValidator)
    (value : Value) (field : String) : VResult :=
  match v.kind with
  | .boolean => booleanValidate v value field
  | .json => jsonValidate parseOk v value field
  | .string => baseValidate v value field
  | .number => baseValidate v value field
  | .array => baseValidate v value field

/-- `BaseValidator.required()` (src/index.js:7-15): sets the flag and
pushes `requiredRule` at the current end of the rule list. -/
def BaseValidator.required (v : BaseValidator) : BaseValidator :=
  ⟨v.kind, v.rules ++ [requiredRule], true⟩

/-- `BaseValidator.oneOf(allowedValues)` (src/index.js:17-24). -/
def BaseValidator.oneOf (v : BaseValidator) (allowedValues : List Value) : BaseValidator :=
  ⟨v.kind, v.rules ++ [oneOfRule allowedValues], v.isRequired⟩

def StringValidator.min (v : BaseValidator) (length : Nat) : BaseValidator :=
  ⟨v.kind, v.rules ++ [strMinRule length], v.isRequired⟩

def StringValidator.max (v : BaseValidator) (length : Nat) : BaseValidator :=
  ⟨v.kind, v.rules ++ [strMaxRule length], v.isRequired⟩

def NumberValidator.min (v : BaseValidator) (minValue : Int) : BaseValidator :=
  ⟨v.kind, v.rules ++ [numMinRule minValue], v.isRequired⟩

def NumberValidator.max (v : BaseValidator) (maxValue : Int) : BaseValidator :=
  ⟨v.kind, v.rules ++ [numMaxRule maxValue], v.isRequired⟩

/-- The `for (let i = 0; ...)` loop inside the rule pushed by
`ArrayValidator.items` (src/index.js:158-164): validate each element under
the field name `` `${field}[${i}]` ``, aborting at the first throw. The
`catch` block rethrows `{field: error.field, message: error.message}`,
which for a thrown ValidationError is an identical copy; a host TypeError
is propagated as such (the source would rewrap it with an `undefined`
field — no claim reaches that case). -/
def runItems (innerValidate : Value → String → VResult) (field : String) :
    Nat → List Value → Option Thrown
  | _, [] => none
  | i, x :: rest =>
    match innerValidate x (field ++ "[" ++ toString i ++ "]") with
    | .ok _ => runItems innerValidate field (i + 1) rest
    | .thrown (.verr e) => some (.verr ⟨e.field, e.message⟩)
    | .thrown .typeError => some .typeError

/-- The rule pushed by `ArrayValidator.items(validator)`
(src/index.js:157-165). `value.length`: arrays iterate their elements,
strings iterate their one-character substrings, `null`/`undefined` raise a
TypeError on the `.length` access, and any other value has
`value.length === undefined`, so `i < value.length` is false at once and
the rule passes. -/
def itemsRule (innerValidate : Value → String → VResult) : Rule := fun value field =>
  match value with
  | .arr xs => runItems innerValidate field 0 xs
  | .str s => runItems innerValidate field 0 (s.toList.map (fun c => .str (String.singleton c)))
  | .null => some .typeError
  | .undef => some .typeError
  | _ => none

/-- `ArrayValidator.items(validator)` (src/index.js:155-167). The closure
captures the inner validator and calls its `validate` at validation time;
`parseOk` (the ambient `JSON.parse` in JS) is baked into the captured
function. The write-only `this.itemValidator` field is not modelled. -/
def ArrayValidator.items (v : BaseValidator) (validator : BaseValidator)
    (parseOk : Value → Bool) : BaseValidator :=
  ⟨v.kind, v.rules ++ [itemsRule (BaseValidator.validate parseOk validator)], v.isRequired⟩

/-- `ArrayValidator.minLength(length)` (src/index.js:137-144):
`value.length < length` with the array message. -/
def arrMinLengthRule (length : Nat) : Rule := fun value field =>
  match value with
  | .str s =>
    if s.length < length then
      some (.verr ⟨field, "Array must contain at least " ++ toString length ++ " items"⟩)
    else none
  | .arr xs =>
    if xs.length < length then
      some (.verr ⟨field, "Array must contain at least " ++ toString length ++ " items"⟩)
    else none
  | .null => some .typeError
  | .undef => some .typeError
  | _ => none

def ArrayValidator.minLength (v : BaseValidator) (length : Nat) : BaseValidator :=
  ⟨v.kind, v.rules ++ [arrMinLengthRule length], v.isRequired⟩

/-- A single quote character, used by the strict-mode message. -/
def squote : String := String.singleton (Char.ofNat 39)

structure Schema where
  schema : List (String × BaseValidator)
  only : Bool

/-- First loop of `Schema.validate` (src/index.js:205-209): the first
declared field, in declaration order, that is absent from the record while
its validator is required. -/
def requiredFieldCheck : List (String × BaseValidator) → List String → Option String
  | [], _ => none
  | (key, validator) :: rest, dataKeys =>
    if !dataKeys.contains key && validator.isRequired then some key
    else requiredFieldCheck rest dataKeys

/-- Second loop of `Schema.validate` (src/index.js:211-216): for each
declared field present in the record, run its validator on the record's
value; stop at the first throw. The source iterates `schemaKeys` and looks
the validator up in the `Map`; since the keys of a `Map` built from an
object are unique, that lookup yields the paired validator. -/
def validateFields (parseOk : Value → Bool) :
    List (String × BaseValidator) → List (String × Value) → Option Thrown
  | [], _ => none
  | (key, validator) :: rest, data =>
    if (data.map Prod.fst).contains key then
      match BaseValidator.validate parseOk validator ((data.lookup key).getD .undef) key with
      | .ok _ => validateFields parseOk rest data
      | .thrown t => some t
    else validateFields parseOk rest data

/-- The two loops of `Schema.validate` after the strict-mode check
(src/index.js:205-218). -/
def schemaFieldsPhase (parseOk : Value → Bool) (entries : List (String × BaseValidator))
    (data : List (String × Value)) : Except Thrown String :=
  match requiredFieldCheck entries (data.map Prod.fst) with
  | some key => .error (.verr ⟨key, "Field is required"⟩)
  | none =>
    match validateFields parseOk entries data with
    | some t => .error t
    | none => .ok "Validation successful"

/-- `Schema.validate(data)` (src/index.js:194-219). In strict mode the
keys of `data` that are not declared in the schema are collected in the
record's own key enumeration order and the first one is reported before
any per-field work. -/
def Schema.validate (parseOk : Value → Bool) (s : Schema)
    (data : List (String × Value)) : Except Thrown String :=
  if s.only then
    match (data.map Prod.fst).filter (fun k => !(s.schema.map Prod.fst).contains k) with
    | extra :: _ =>
      .error (.verr ⟨extra, "Unexpected field " ++ squote ++ extra ++ squote
        ++ " not defined in schema"⟩)
    | [] => schemaFieldsPhase parseOk s.schema data
  else schemaFieldsPhase parseOk s.schema data

/-- `Validator.string()` (src/index.js:223-225). -/
def Validator.string : BaseValidator := ⟨.string, [], false⟩

/-- `Validator.number()` (src/index.js:227-229). -/
def Validator.number : BaseValidator := ⟨.number, [], false⟩

/-- `Validator.boolean()` (src/index.js:231-233). -/
def Validator.boolean : BaseValidator := ⟨.boolean, [], false⟩

/-- `Validator.array()` (src/index.js:235-237). -/
def Validator.array : BaseValidator := ⟨.array, [], false⟩

/-- `Validator.json()` (src/index.js:239-241). -/
def Validator.json : BaseValidator := ⟨.json, [], false⟩

/-- `Validator.createSchema(schemaDefinition, only)` (src/index.js:243-245);
the JS default for `only` is `false`. -/
def Validator.createSchema (schemaDefinition : List (String × BaseValidator))
    (only : Bool) : Schema := ⟨schemaDefinition, only⟩

/-- A parse predicate for witnesses: only the string "null" (what
`String(null)` feeds to `JSON.parse`) parses. -/
def parseOkNullOnly : Value → Bool
  | .null => true
  | .str "null" => true
  | _ => false

/-- A parse predicate for witnesses: everything parses. -/
def parseOkAll : Value → Bool := fun _ => true

/-- A parse predicate for witnesses: nothing parses. -/
def parseOkNone : Value → Bool := fun _ => false

/-! ## Helper lemmas about the rule loop -/

theorem runRules_append_none (rules1 rules2 : List Rule) (v : Value) (f : String)
    (h : ∀ r ∈ rules1, r v f = none) :
    runRules (rules1 ++ rules2) v f = runRules rules2 v f := by
  induction rules1 with
  | nil => rfl
  | cons r rest ih =>
    have hr : r v f = none := h r (by simp)
    simp only [List.cons_append, runRules, hr]
    exact ih (fun rr hrr => h rr (by simp [hrr]))

theorem runRules_all_none (rules : List Rule) (v : Value) (f : String)
    (h : ∀ r ∈ rules, r v f = none) :
    runRules rules v f = none := by
  induction rules with
  | nil => rfl
  | cons r rest ih =>
    have hr : r v f = none := h r (by simp)
    simp only [runRules, hr]
    exact ih (fun rr hrr => h rr (by simp [hrr]))

/-! ## Claim C1 -/

/-- Claim C1, counterexample: a `BooleanValidator` on which `.required()`
has been called does not fail `validate('', f)` with `Value is required`;
its type check runs first and reports `Value must be a boolean`. -/
theorem C1_counterexample :
    BaseValidator.validate parseOkNone (BaseValidator.required Validator.boolean)
      (.str "") "f" = .thrown (.verr ⟨"f", "Value must be a boolean"⟩) ∧
    BaseValidator.validate parseOkNone (BaseValidator.required Validator.boolean)
      (.str "") "f" ≠ .thrown (.verr ⟨"f", "Value is required"⟩) := by
  refine ⟨rfl, ?_⟩
  intro h
  have e : BaseValidator.validate parseOkNone (BaseValidator.required Validator.boolean)
      (.str "") "f" = .thrown (.verr ⟨"f", "Value must be a boolean"⟩) := rfl
  rw [e] at h
  simp at h

/-- Claim C1, amended: for String, Number and Array validators (which use
the inherited `validate`) whose first rule is the one pushed by
`.required()`, `validate('' , f)`, `validate(null, f)` and
`validate(undefined, f)` all fail with `Value is required` and field `f`.
A Boolean validator with `.required()` instead fails all three with
`Value must be a boolean` (the type check preempts every rule), and a JSON
validator fails `''` and `undefined` with `Invalid JSON format`
(`JSON.parse` rejects them) while `null` parses (as the text "null") and
then fails with `Value is required`. -/
theorem C1_required_rule_by_kind (p : Value → Bool) (f : String) :
    (∀ (k : ValidatorKind) (rest : List Rule) (value : Value),
      (k = .string ∨ k = .number ∨ k = .array) →
      (value = .str "" ∨ value = .null ∨ value = .undef) →
      BaseValidator.validate p ⟨k, requiredRule :: rest, true⟩ value f
        = .thrown (.verr ⟨f, "Value is required"⟩)) ∧
    (∀ (rules : List Rule) (value : Value),
      (value = .str "" ∨ value = .null ∨ value = .undef) →
      BaseValidator.validate p ⟨.boolean, rules, true⟩ value f
        = .thrown (.verr ⟨f, "Value must be a boolean"⟩)) ∧
    (∀ (rest : List Rule),
      (p (.str "") = false →
        BaseValidator.validate p ⟨.json, requiredRule :: rest, true⟩ (.str "") f
          = .thrown (.verr ⟨f, "Invalid JSON format"⟩)) ∧
      (p .undef = false →
        BaseValidator.validate p ⟨.json, requiredRule :: rest, true⟩ .undef f
          = .thrown (.verr ⟨f, "Invalid JSON format"⟩)) ∧
      (p .null = true →
        BaseValidator.validate p ⟨.json, requiredRule :: rest, true⟩ .null f
          = .thrown (.verr ⟨f, "Value is required"⟩))) := by
  refine ⟨?_, ?_, ?_⟩
  · rintro k rest value (rfl | rfl | rfl) hv <;>
      rcases hv with rfl | rfl | rfl <;>
      simp [BaseValidator.validate, baseValidate, runRules, requiredRule, isUndef]
  · rintro rules value (rfl | rfl | rfl) <;>
      simp [BaseValidator.validate, booleanValidate, isUndef, jsTypeofBoolean]
  · intro rest
    refine ⟨fun hp => ?_, fun hp => ?_, fun hp => ?_⟩ <;>
      simp [BaseValidator.validate, jsonValidate, baseValidate, runRules, requiredRule,
        isUndef, hp]

/-- Claim C1, witness for the amended theorem at concrete inputs. -/
theorem C1_required_rule_by_kind_witness :
    BaseValidator.validate parseOkNullOnly (BaseValidator.required Validator.string)
      (.str "") "f" = .thrown (.verr ⟨"f", "Value is required"⟩) ∧
    BaseValidator.validate parseOkNullOnly (BaseValidator.required Validator.boolean)
      .null "f" = .thrown (.verr ⟨"f", "Value must be a boolean"⟩) ∧
    BaseValidator.validate parseOkNullOnly (BaseValidator.required Validator.json)
      .null "f" = .thrown (.verr ⟨"f", "Value is required"⟩) ∧
    BaseValidator.validate parseOkNullOnly (BaseValidator.required Validator.json)
      (.str "") "f" = .thrown (.verr ⟨"f", "Invalid JSON format"⟩) := by
  refine ⟨?_, ?_, ?_, ?_⟩
  · exact (C1_required_rule_by_kind parseOkNullOnly "f").1 .string [] (.str "")
      (Or.inl rfl) (Or.inl rfl)
  · exact (C1_required_rule_by_kind parseOkNullOnly "f").2.1 [requiredRule] .null
      (Or.inr (Or.inl rfl))
  · exact ((C1_required_rule_by_kind parseOkNullOnly "f").2.2 []).2.2 rfl
  · exact ((C1_required_rule_by_kind parseOkNullOnly "f").2.2 []).1 rfl

/-! ## Claim C2 -/

/-- Claim C2, counterexample: `validate(null, f)` on a non-required
validator does not return success and does run a Rule — here the `oneOf`
rule fires on `null`. -/
theorem C2_counterexample :
    BaseValidator.validate parseOkNone (BaseValidator.oneOf Validator.number [.num 1])
      .null "f" = .thrown (.verr ⟨"f", "Value must be one of: 1"⟩) ∧
    ∀ w, BaseValidator.validate parseOkNone (BaseValidator.oneOf Validator.number [.num 1])
      .null "f" ≠ .ok w := by
  refine ⟨rfl, ?_⟩
  intro w h
  have e : BaseValidator.validate parseOkNone (BaseValidator.oneOf Validator.number [.num 1])
      .null "f" = .thrown (.verr ⟨"f", "Value must be one of: 1"⟩) := rfl
  rw [e] at h
  exact VResult.noConfusion h

/-- Claim C2, amended: only `undefined` is treated as absent. For every
validator on which `.required()` was not called, `validate(undefined, f)`
returns success (`undefined`) immediately and runs no Rule (the rule list
is arbitrary); `validate(null, f)` does not short-circuit — for the
validators using the inherited `validate` it proceeds into the Rule loop
on `null`. -/
theorem C2_undef_skip_null_runs (p : Value → Bool) (f : String) :
    (∀ v : BaseValidator, v.isRequired = false →
      BaseValidator.validate p v .undef f = .ok .undef) ∧
    (∀ (k : ValidatorKind) (rules : List Rule),
      (k = .string ∨ k = .number ∨ k = .array) →
      BaseValidator.validate p ⟨k, rules, false⟩ .null f
        = match runRules rules .null f with
          | some t => .thrown t
          | none => .ok (.bool true)) := by
  constructor
  · rintro ⟨k, rules, req⟩ hreq
    cases k <;>
      simp [BaseValidator.validate, baseValidate, booleanValidate, jsonValidate,
        isUndef] at hreq ⊢ <;> simp [hreq]
  · rintro k rules (rfl | rfl | rfl) <;>
      simp [BaseValidator.validate, baseValidate, isUndef]

/-- Claim C2, witness for the amended theorem at concrete inputs. -/
theorem C2_undef_skip_null_runs_witness :
    BaseValidator.validate parseOkNone (BaseValidator.oneOf Validator.boolean [.bool true])
      Value.undef "f" = .ok .undef ∧
    BaseValidator.validate parseOkNone ⟨.number, [oneOfRule [.num 1]], false⟩
      .null "f" = .thrown (.verr ⟨"f", "Value must be one of: 1"⟩) := by
  constructor
  · exact (C2_undef_skip_null_runs parseOkNone "f").1
      (BaseValidator.oneOf Validator.boolean [.bool true]) rfl
  · have h := (C2_undef_skip_null_runs parseOkNone "f").2 .number [oneOfRule [.num 1]]
      (Or.inr (Or.inl rfl))
    exact h.trans rfl

/-! ## Claim C9 -/

/-- Claim C9: the two success paths of the inherited `validate` return
different values: skipping an `undefined` value on a non-required
validator returns `undefined` (the bare `return;`), while passing all
Rules returns `true`; and `undefined ≠ true`, so there is no single
success marker. -/
theorem C9_two_success_values (p : Value → Bool) (f : String) :
    (∀ v : BaseValidator, v.isRequired = false →
      BaseValidator.validate p v .undef f = .ok .undef) ∧
    (∀ (k : ValidatorKind) (rules : List Rule) (req : Bool) (value : Value),
      (k = .string ∨ k = .number ∨ k = .array) →
      (isUndef value && !req) = false →
      (∀ rr ∈ rules, rr value f = none) →
      BaseValidator.validate p ⟨k, rules, req⟩ value f = .ok (.bool true)) ∧
    Value.undef ≠ Value.bool true := by
  refine ⟨?_, ?_, fun h => Value.noConfusion h⟩
  · rintro ⟨k, rules, req⟩ hreq
    cases k <;>
      simp [BaseValidator.validate, baseValidate, booleanValidate, jsonValidate,
        isUndef] at hreq ⊢ <;> simp [hreq]
  · rintro k rules req value (rfl | rfl | rfl) hskip hall <;>
      simp [BaseValidator.validate, baseValidate, hskip, runRules_all_none rules value f hall]

/-- Claim C9, witness at concrete inputs. -/
theorem C9_two_success_values_witness :
    BaseValidator.validate parseOkNone Validator.string Value.undef "f" = .ok .undef ∧
    BaseValidator.validate parseOkNone Validator.number (.num 5) "f" = .ok (.bool true) := by
  constructor
  · exact (C9_two_success_values parseOkNone "f").1 Validator.string rfl
  · exact (C9_two_success_values parseOkNone "f").2.1 .number [] false (.num 5)
      (Or.inr (Or.inl rfl)) rfl (fun rr hrr => by simp at hrr)

/-! ## Claim C6 -/

/-- Claim C6: `JSONValidator.validate`, past the unset-and-not-required
short-circuit, fails with `Invalid JSON format` — bypassing every Rule,
the rule list being arbitrary — exactly when `JSON.parse` (the predicate
`p`) rejects the value; when the value parses, it falls through to the
inherited rule loop applied to the original, unparsed value. -/
theorem C6_json_parse_gate (p : Value → Bool) (v : BaseValidator) (value : Value)
    (f : String) (hk : v.kind = .json)
    (hns : (isUndef value && !v.isRequired) = false) :
    (p value = false →
      BaseValidator.validate p v value f = .thrown (.verr ⟨f, "Invalid JSON format"⟩)) ∧
    (p value = true →
      BaseValidator.validate p v value f = baseValidate v value f) := by
  constructor <;> intro hp <;>
    simp [BaseValidator.validate, hk, jsonValidate, hns, hp, baseValidate]

/-- Claim C6, witness: a required JSON validator under a parser accepting
only the text "null". -/
theorem C6_json_parse_gate_witness :
    BaseValidator.validate parseOkNullOnly (BaseValidator.required Validator.json)
      (.str "oops") "f" = .thrown (.verr ⟨"f", "Invalid JSON format"⟩) ∧
    BaseValidator.validate parseOkNullOnly (BaseValidator.required Validator.json)
      (.str "null") "f"
      = baseValidate (BaseValidator.required Validator.json) ( .str "null") "f" := by
  constructor
  · exact (C6_json_parse_gate parseOkNullOnly (BaseValidator.required Validator.json)
      (.str "oops") "f" rfl rfl).1 rfl
  · exact (C6_json_parse_gate parseOkNullOnly (BaseValidator.required Validator.json)
      (.str "null") "f" rfl rfl).2 rfl

/-! ## Claim C7 -/

/-- Claim C7: `BooleanValidator.validate`, past the unset-and-not-required
short-circuit, fails with `Value must be a boolean` for every value whose
runtime type is not boolean — the configured rule list being arbitrary and
bypassed — and only for an actual boolean falls through to the inherited
rule loop. -/
theorem C7_boolean_type_gate (p : Value → Bool) (v : BaseValidator) (value : Value)
    (f : String) (hk : v.kind = .boolean)
    (hns : (isUndef value && !v.isRequired) = false) :
    (jsTypeofBoolean value = false →
      BaseValidator.validate p v value f = .thrown (.verr ⟨f, "Value must be a boolean"⟩)) ∧
    (∀ b : Bool, value = .bool b →
      BaseValidator.validate p v value f = baseValidate v value f) := by
  constructor
  · intro hb
    simp [BaseValidator.validate, hk, booleanValidate, hns, hb]
  · rintro b rfl
    simp [BaseValidator.validate, hk, booleanValidate, hns, jsTypeofBoolean]

/-- Claim C7, witness: a boolean validator with a chained `oneOf` rule
still reports the type failure on the string "true". -/
theorem C7_boolean_type_gate_witness :
    BaseValidator.validate parseOkNone (BaseValidator.oneOf Validator.boolean [.bool true])
      (.str "true") "f" = .thrown (.verr ⟨"f", "Value must be a boolean"⟩) ∧
    BaseValidator.validate parseOkNone (BaseValidator.oneOf Validator.boolean [.bool true])
      (.bool false) "f"
      = baseValidate (BaseValidator.oneOf Validator.boolean [.bool true]) (.bool false) "f" := by
  constructor
  · exact (C7_boolean_type_gate parseOkNone
      (BaseValidator.oneOf Validator.boolean [.bool true]) (.str "true") "f" rfl rfl).1 rfl
  · exact (C7_boolean_type_gate parseOkNone
      (BaseValidator.oneOf Validator.boolean [.bool true]) (.bool false) "f" rfl rfl).2
      false rfl

/-! ## Claim C8 -/

/-- Claim C8, counterexample: for a `BooleanValidator` with a single
`oneOf` rule and the non-skipped value `"x"`, the first (and only) Rule's
predicate does fail, yet the ValidationError produced by `validate` is the
type-check error, not that Rule's error — so "the first Rule whose
predicate fails produces the ValidationError" is false for every
FieldValidator. -/
theorem C8_counterexample :
    oneOfRule [.bool true] (.str "x") "f"
      = some (.verr ⟨"f", "Value must be one of: true"⟩) ∧
    BaseValidator.validate parseOkNone (BaseValidator.oneOf Validator.boolean [.bool true])
      (.str "x") "f" = .thrown (.verr ⟨"f", "Value must be a boolean"⟩) ∧
    ("Value must be a boolean" : String) ≠ "Value must be one of: true" := by
  refine ⟨rfl, rfl, by decide⟩

/-- Claim C8, amended: for the FieldValidators that use the inherited
`validate` (String, Number, Array) and every value that is not skipped,
the Rules run in the order the constraint methods were called; the first
Rule that throws produces the ValidationError and no later Rule is run
(the rules after it are arbitrary), and if all Rules pass, `validate`
returns success. Boolean and JSON validators run the same inherited loop
only once their type/parse pre-check has passed. -/
theorem C8_rule_order (p : Value → Bool) :
    (∀ (k : ValidatorKind) (pre post : List Rule) (r : Rule) (req : Bool)
      (value : Value) (f : String) (t : Thrown),
      (k = .string ∨ k = .number ∨ k = .array) →
      (isUndef value && !req) = false →
      (∀ rr ∈ pre, rr value f = none) →
      r value f = some t →
      BaseValidator.validate p ⟨k, pre ++ r :: post, req⟩ value f = .thrown t) ∧
    (∀ (k : ValidatorKind) (rules : List Rule) (req : Bool) (value : Value) (f : String),
      (k = .string ∨ k = .number ∨ k = .array) →
      (isUndef value && !req) = false →
      (∀ rr ∈ rules, rr value f = none) →
      BaseValidator.validate p ⟨k, rules, req⟩ value f = .ok (.bool true)) ∧
    (∀ (v : BaseValidator) (b : Bool) (f : String),
      v.kind = .boolean →
      BaseValidator.validate p v (.bool b) f = baseValidate v (.bool b) f) ∧
    (∀ (v : BaseValidator) (value : Value) (f : String),
      v.kind = .json → p value = true →
      (isUndef value && !v.isRequired) = false →
      BaseValidator.validate p v value f = baseValidate v value f) := by
  refine ⟨?_, ?_, ?_, ?_⟩
  · rintro k pre post r req value f t (rfl | rfl | rfl) hskip hpre hr <;>
      simp [BaseValidator.validate, baseValidate, hskip,
        runRules_append_none pre (r :: post) value f hpre, runRules, hr]
  · rintro k rules req value f (rfl | rfl | rfl) hskip hall <;>
      simp [BaseValidator.validate, baseValidate, hskip,
        runRules_all_none rules value f hall]
  · intro v b f hk
    simp [BaseValidator.validate, hk, booleanValidate, baseValidate, isUndef,
      jsTypeofBoolean]
  · intro v value f hk hp hns
    simp [BaseValidator.validate, hk, jsonValidate, hns, hp]

/-- Claim C8, witness: `min(0).max(10)` on a number validator — `11` is
caught by the second rule after the first passes, `5` passes both. -/
theorem C8_rule_order_witness :
    BaseValidator.validate parseOkNone ⟨.number, [numMinRule 0, numMaxRule 10], false⟩
      (.num 11) "f" = .thrown (.verr ⟨"f", "Value must be less than or equal to 10"⟩) ∧
    BaseValidator.validate parseOkNone ⟨.number, [numMinRule 0, numMaxRule 10], false⟩
      (.num 5) "f" = .ok (.bool true) ∧
    BaseValidator.validate parseOkAll Validator.boolean (.bool true) "f"
      = baseValidate Validator.boolean (.bool true) "f" ∧
    BaseValidator.validate parseOkAll Validator.json (.str "5") "f"
      = baseValidate Validator.json (.str "5") "f" := by
  refine ⟨?_, ?_, ?_, ?_⟩
  · exact (C8_rule_order parseOkNone).1 .number [numMinRule 0] [] (numMaxRule 10) false
      (.num 11) "f" (.verr ⟨"f", "Value must be less than or equal to 10"⟩)
      (Or.inr (Or.inl rfl)) rfl
      (fun rr hrr => by simp at hrr; subst hrr; rfl) rfl
  · exact (C8_rule_order parseOkNone).2.1 .number [numMinRule 0, numMaxRule 10] false
      (.num 5) "f" (Or.inr (Or.inl rfl)) rfl
      (fun rr hrr => by
        simp at hrr
        rcases hrr with rfl | rfl <;> rfl)
  · exact (C8_rule_order parseOkAll).2.2.1 Validator.boolean true "f" rfl
  · exact (C8_rule_order parseOkAll).2.2.2 Validator.json (.str "5") "f" rfl rfl rfl

/-! ## Claim C5 -/

/-- The element loop of the `items` rule, started at index `i`: if every
element of `pre` validates successfully under its bracketed field name and
the next element throws a ValidationError `e`, the loop result is `e`
(rewrapped field-and-message, which is the same error), and the elements
after it are never examined. -/
theorem runItems_first_failure (inner : Value → String → VResult) (f : String)
    (pre : List Value) (x : Value) (post : List Value) (e : ValidationError) :
    ∀ i : Nat,
    (∀ j, j < pre.length →
      ∃ w, inner (pre.getD j .undef) (f ++ "[" ++ toString (i + j) ++ "]") = .ok w) →
    inner x (f ++ "[" ++ toString (i + pre.length) ++ "]") = .thrown (.verr e) →
    runItems inner f i (pre ++ x :: post) = some (.verr ⟨e.field, e.message⟩) := by
  induction pre with
  | nil =>
    intro i _ hx
    simp only [List.length_nil, Nat.add_zero] at hx
    simp [runItems, hx]
  | cons y rest ih =>
    intro i hpre hx
    obtain ⟨w, hw⟩ := hpre 0 (by simp)
    simp only [List.getD_cons_zero, Nat.add_zero] at hw
    simp only [List.cons_append, runItems, hw]
    refine ih (i + 1) (fun j hj => ?_) ?_
    · have h := hpre (j + 1) (by simpa using Nat.succ_lt_succ hj)
      have harith : i + (j + 1) = i + 1 + j := by omega
      simpa [List.getD_cons_succ, harith] using h
    · have harith : i + (y :: rest).length = i + 1 + rest.length := by simp; omega
      rw [harith] at hx
      exact hx

/-- Claim C5: for an ArrayValidator configured with `items(itemValidator)`,
validating an array runs `itemValidator.validate(element, "<f>[<i>]")` on
each element at its index, in order; the first element whose nested
validation throws a ValidationError aborts the whole array validation
(the elements after it — `post` — are arbitrary and never examined), and
the reported error is exactly the nested error `e`, its bracketed field
name unrewritten. -/
theorem C5_items_nested_error (p : Value → Bool) (itemValidator : BaseValidator)
    (f : String) (pre : List Value) (x : Value) (post : List Value) (e : ValidationError)
    (hpre : ∀ j, j < pre.length →
      ∃ w, BaseValidator.validate p itemValidator (pre.getD j .undef)
        (f ++ "[" ++ toString j ++ "]") = .ok w)
    (hx : BaseValidator.validate p itemValidator x
      (f ++ "[" ++ toString pre.length ++ "]") = .thrown (.verr e)) :
    BaseValidator.validate p (ArrayValidator.items Validator.array itemValidator p)
      (.arr (pre ++ x :: post)) f = .thrown (.verr e) := by
  have h := runItems_first_failure (BaseValidator.validate p itemValidator) f pre x post e 0
    (fun j hj => by simpa using hpre j hj) (by simpa using hx)
  simp [ArrayValidator.items, Validator.array, BaseValidator.validate, baseValidate,
    isUndef, runRules, itemsRule, h]

/-- Claim C5, witness: `items(number().min(0))` on `[1, -1, 2]` reports
field `"name[1]"`. -/
theorem C5_items_nested_error_witness :
    BaseValidator.validate parseOkNone
      (ArrayValidator.items Validator.array (NumberValidator.min Validator.number 0) parseOkNone)
      (.arr [.num 1, .num (-1), .num 2]) "name"
      = .thrown (.verr ⟨"name[1]", "Value must be greater than or equal to 0"⟩) := by
  refine C5_items_nested_error parseOkNone (NumberValidator.min Validator.number 0) "name"
    [.num 1] (.num (-1)) [.num 2] ⟨"name[1]", "Value must be greater than or equal to 0"⟩
    (fun j hj => ?_) rfl
  have hj0 : j = 0 := by
    simpa using Nat.lt_one_iff.mp (by simpa using hj)
  subst hj0
  exact ⟨.bool true, rfl⟩

/-! ## Association-list lemmas for Schema -/

/-- `key in data` (membership among the record's keys) agrees with
`data[key]` being defined, for an association-list record. -/
theorem contains_eq_isSome_lookup (data : List (String × Value)) (k : String) :
    (data.map Prod.fst).contains k = (data.lookup k).isSome := by
  induction data with
  | nil => rfl
  | cons hd tl ih =>
    obtain ⟨a, b⟩ := hd
    cases hba : (k == a) with
    | true =>
      have h : k = a := by simpa using hba
      subst h
      simp [List.lookup]
    | false =>
      simp only [List.map_cons, List.contains_cons, hba, Bool.false_or, List.lookup, ih]

/-- The per-field loop over a split schema: the fields of `pre` are
checked first, and the fields of `rest` are reached only when every field
of `pre` passed. -/
theorem validateFields_append (p : Value → Bool) (pre rest : List (String × BaseValidator))
    (data : List (String × Value)) :
    validateFields p (pre ++ rest) data
      = match validateFields p pre data with
        | some t => some t
        | none => validateFields p rest data := by
  induction pre with
  | nil => simp [validateFields]
  | cons hd tl ih =>
    obtain ⟨key, validator⟩ := hd
    simp only [List.cons_append, validateFields]
    by_cases hc : ((data.map Prod.fst).contains key) = true
    · simp only [hc, if_true]
      cases hval : BaseValidator.validate p validator ((data.lookup key).getD .undef) key with
      | ok w => simp [ih]
      | thrown t => simp
    · simp only [hc, if_false, Bool.false_eq_true]
      exact ih

/-! ## Claim C3 -/

/-- Claim C3: `Schema.validate` checks all declared fields for
absence-while-required (reporting `Field is required` for the first such
field, in declaration order) before invoking any field's validator — the
first conjunct holds for arbitrary validators and record values, so no
validator can run first. When that phase finds nothing, per-field
validation runs in schema-declaration order: with `pre` all passing and
the declared field `key` present with value `value`, the first thrown
error `t` is propagated and the fields of `post` are never examined; and
when every field passes, the success marker is returned. -/
theorem C3_schema_two_phases (p : Value → Bool) (entries : List (String × BaseValidator))
    (data : List (String × Value)) :
    (∀ k, requiredFieldCheck entries (data.map Prod.fst) = some k →
      Schema.validate p ⟨entries, false⟩ data = .error (.verr ⟨k, "Field is required"⟩)) ∧
    (requiredFieldCheck entries (data.map Prod.fst) = none →
      ∀ (pre : List (String × BaseValidator)) (key : String) (validator : BaseValidator)
        (post : List (String × BaseValidator)) (value : Value) (t : Thrown),
      entries = pre ++ (key, validator) :: post →
      validateFields p pre data = none →
      data.lookup key = some value →
      BaseValidator.validate p validator value key = .thrown t →
      Schema.validate p ⟨entries, false⟩ data = .error t) ∧
    (requiredFieldCheck entries (data.map Prod.fst) = none →
      validateFields p entries data = none →
      Schema.validate p ⟨entries, false⟩ data = .ok "Validation successful") := by
  refine ⟨?_, ?_, ?_⟩
  · intro k h
    simp [Schema.validate, schemaFieldsPhase, h]
  · intro hnone pre key validator post value t hent hpre hlk hval
    subst hent
    have hc : ((data.map Prod.fst).contains key) = true := by
      rw [contains_eq_isSome_lookup, hlk]
      rfl
    have hrun : validateFields p (pre ++ (key, validator) :: post) data = some t := by
      rw [validateFields_append]
      simp only [hpre]
      simp only [validateFields, hc, if_true]
      have hv : (data.lookup key).getD .undef = value := by rw [hlk]; rfl
      rw [hv, hval]
    simp [Schema.validate, schemaFieldsPhase, hnone, hrun]
  · intro hnone hfields
    simp [Schema.validate, schemaFieldsPhase, hnone, hfields]

/-! ## Claim C4 -/

/-- Claim C4: with strict mode (`only = true`), whenever the record has a
key not declared in the schema, `Schema.validate` fails before any
per-field validation (the validators are arbitrary and never invoked),
reporting the first extra key in the record's own key enumeration order
with the `Unexpected field '<key>' not defined in schema` message. -/
theorem C4_strict_mode (p : Value → Bool) (entries : List (String × BaseValidator))
    (data : List (String × Value)) :
    (∀ k rest,
      (data.map Prod.fst).filter (fun x => !(entries.map Prod.fst).contains x) = k :: rest →
      Schema.validate p ⟨entries, true⟩ data
        = .error (.verr ⟨k, "Unexpected field " ++ squote ++ k ++ squote
            ++ " not defined in schema"⟩)) ∧
    (∀ k0, k0 ∈ data.map Prod.fst → k0 ∉ entries.map Prod.fst →
      (data.map Prod.fst).filter (fun x => !(entries.map Prod.fst).contains x) ≠ []) := by
  constructor
  · intro k rest h
    have hu : Schema.validate p ⟨entries, true⟩ data
        = match (data.map Prod.fst).filter (fun x => !(entries.map Prod.fst).contains x) with
          | extra :: _ =>
            .error (.verr ⟨extra, "Unexpected field " ++ squote ++ extra ++ squote
              ++ " not defined in schema"⟩)
          | [] => schemaFieldsPhase p entries data := rfl
    rw [hu, h]
  · intro k0 hmem hnot hnil
    have hc : ((entries.map Prod.fst).contains k0) = false := by
      show List.elem k0 (entries.map Prod.fst) = false
      simp only [List.elem_eq_mem, decide_eq_false_iff_not]
      exact hnot
    have hin : k0 ∈ (data.map Prod.fst).filter
        (fun x => !(entries.map Prod.fst).contains x) := by
      refine List.mem_filter.mpr ⟨hmem, ?_⟩
      show (!(entries.map Prod.fst).contains k0) = true
      rw [hc]
      rfl
    rw [hnil] at hin
    exact List.not_mem_nil k0 hin

/-! ## Claim C10 -/

/-- The required-field phase only reads the record through the presence of
the declared keys. -/
theorem requiredFieldCheck_ext (entries : List (String × BaseValidator))
    (d1 d2 : List (String × Value))
    (h : ∀ k ∈ entries.map Prod.fst, d1.lookup k = d2.lookup k) :
    requiredFieldCheck entries (d1.map Prod.fst)
      = requiredFieldCheck entries (d2.map Prod.fst) := by
  induction entries with
  | nil => rfl
  | cons hd tl ih =>
    obtain ⟨key, validator⟩ := hd
    have hk : d1.lookup key = d2.lookup key := h key (by simp)
    have hc : (d1.map Prod.fst).contains key = (d2.map Prod.fst).contains key := by
      rw [contains_eq_isSome_lookup, contains_eq_isSome_lookup, hk]
    simp only [requiredFieldCheck, hc]
    split
    · rfl
    · exact ih (fun k hkm => h k (by simp [hkm]))

/-- The per-field phase only reads the record through the declared keys. -/
theorem validateFields_ext (p : Value → Bool) (entries : List (String × BaseValidator))
    (d1 d2 : List (String × Value))
    (h : ∀ k ∈ entries.map Prod.fst, d1.lookup k = d2.lookup k) :
    validateFields p entries d1 = validateFields p entries d2 := by
  induction entries with
  | nil => rfl
  | cons hd tl ih =>
    obtain ⟨key, validator⟩ := hd
    have hk : d1.lookup key = d2.lookup key := h key (by simp)
    have hc : (d1.map Prod.fst).contains key = (d2.map Prod.fst).contains key := by
      rw [contains_eq_isSome_lookup, contains_eq_isSome_lookup, hk]
    simp only [validateFields, hc, hk]
    split
    · cases BaseValidator.validate p validator ((d2.lookup key).getD .undef) key with
      | ok w => exact ih (fun k hkm => h k (by simp [hkm]))
      | thrown t => rfl
    · exact ih (fun k hkm => h k (by simp [hkm]))

/-- Claim C10: in non-strict mode, two records that agree on every key
declared in the schema (same presence and same value, keys not declared
being free to differ) validate to the same result — undeclared keys are
never read and never cause a failure. -/
theorem C10_undeclared_keys_irrelevant (p : Value → Bool)
    (entries : List (String × BaseValidator)) (d1 d2 : List (String × Value))
    (h : ∀ k ∈ entries.map Prod.fst, d1.lookup k = d2.lookup k) :
    Schema.validate p ⟨entries, false⟩ d1 = Schema.validate p ⟨entries, false⟩ d2 := by
  have h1 := requiredFieldCheck_ext entries d1 d2 h
  have h2 := validateFields_ext p entries d1 d2 h
  simp [Schema.validate, schemaFieldsPhase, h1, h2]

/-- Claim C3, witness: an absent required field wins over an earlier
invalid present field; among present fields the first failing one in
declaration order is reported; and a fully valid record succeeds. -/
theorem C3_schema_two_phases_witness :
    Schema.validate parseOkNone
      ⟨[("a", NumberValidator.min Validator.number 0),
        ("b", BaseValidator.required Validator.string)], false⟩
      [("a", .num (-5))] = .error (.verr ⟨"b", "Field is required"⟩) ∧
    Schema.validate parseOkNone
      ⟨[("a", NumberValidator.min Validator.number 0),
        ("b", NumberValidator.min Validator.number 0),
        ("c", BaseValidator.required Validator.number)], false⟩
      [("a", .num 1), ("b", .num (-1)), ("c", .num 7)]
      = .error (.verr ⟨"b", "Value must be greater than or equal to 0"⟩) ∧
    Schema.validate parseOkNone
      ⟨[("name", BaseValidator.required Validator.string),
        ("age", NumberValidator.min Validator.number 0)], false⟩
      [("name", .str "Al"), ("age", .num 30)] = .ok "Validation successful" := by
  refine ⟨?_, ?_, ?_⟩
  · exact (C3_schema_two_phases parseOkNone
      [("a", NumberValidator.min Validator.number 0),
       ("b", BaseValidator.required Validator.string)]
      [("a", .num (-5))]).1 "b" rfl
  · exact (C3_schema_two_phases parseOkNone
      [("a", NumberValidator.min Validator.number 0),
       ("b", NumberValidator.min Validator.number 0),
       ("c", BaseValidator.required Validator.number)]
      [("a", .num 1), ("b", .num (-1)), ("c", .num 7)]).2.1 rfl
      [("a", NumberValidator.min Validator.number 0)] "b"
      (NumberValidator.min Validator.number 0)
      [("c", BaseValidator.required Validator.number)] (.num (-1))
      (.verr ⟨"b", "Value must be greater than or equal to 0"⟩) rfl rfl rfl rfl
  · exact (C3_schema_two_phases parseOkNone
      [("name", BaseValidator.required Validator.string),
       ("age", NumberValidator.min Validator.number 0)]
      [("name", .str "Al"), ("age", .num 30)]).2.2 rfl rfl

/-- Claim C4, witness: `createSchema({a: string()}, true)` on
`{a: "x", b: 1}` reports field `b`. -/
theorem C4_strict_mode_witness :
    Schema.validate parseOkNone ⟨[("a", Validator.string)], true⟩
      [("a", .str "x"), ("b", .num 1)]
      = .error (.verr ⟨"b", "Unexpected field " ++ squote ++ "b" ++ squote
          ++ " not defined in schema"⟩) ∧
    ([("a", Value.str "x"), ("b", Value.num 1)].map Prod.fst).filter
      (fun x => !([("a", Validator.string)].map Prod.fst).contains x) ≠ [] := by
  constructor
  · exact (C4_strict_mode parseOkNone [("a", Validator.string)]
      [("a", .str "x"), ("b", .num 1)]).1 "b" [] rfl
  · exact (C4_strict_mode parseOkNone [("a", Validator.string)]
      [("a", .str "x"), ("b", .num 1)]).2 "b" (by decide) (by decide)

/-- Claim C10, witness: adding an undeclared key `z` to a valid record
changes nothing. -/
theorem C10_undeclared_keys_irrelevant_witness :
    Schema.validate parseOkNone ⟨[("a", NumberValidator.min Validator.number 0)], false⟩
      [("a", .num 1)]
      = Schema.validate parseOkNone ⟨[("a", NumberValidator.min Validator.number 0)], false⟩
        [("a", .num 1), ("z", .str "extra")] ∧
    Schema.validate parseOkNone ⟨[("a", NumberValidator.min Validator.number 0)], false⟩
      [("a", .num 1), ("z", .str "extra")] = .ok "Validation successful" := by
  constructor
  · exact C10_undeclared_keys_irrelevant parseOkNone _ _ _
      (fun k hk => by simp at hk; subst hk; rfl)
  · rfl
